import Mathlib

/-!
Verification of the chatbot conversation engine of tcea-inventory-server.

This file gives a shallow embedding of the chatbot package:
* the streaming client `ChatStreamWithTools` (SSE line loop, tool-call
  fragment accumulation keyed by index, emission on finish reason),
* the tool executor `Execute` (argument parsing, dispatch, error folding),
* the WebSocket handler `ServeHTTP` (bounded model-call/tool-execution
  loop, sequential tool execution, commit/save/done tail),
* the byte-bounded LRU conversation store (`Get`/`Create`/`AddMessages`
  and `evictIfNeeded`).

External effects (HTTP transport, JSON decoding of SSE payloads, the
database-backed domain operations, random id generation and clock) are
modelled as explicit parameters; everything else is translated directly
from the Go source.
-/

/-- `FunctionCall` from store.go: function name plus raw JSON arguments string. -/
structure FunctionCall where
  name : String
  arguments : String
  deriving DecidableEq

/-- `ToolCall` from store.go: id, type (always "function") and function call. -/
structure ToolCall where
  id : String
  type : String
  function : FunctionCall
  deriving DecidableEq

/-- `Message` from store.go. `content` is a `*string` in Go, hence `Option`. -/
structure Message where
  role : String
  content : Option String
  toolCalls : List ToolCall
  toolCallID : String
  name : String
  deriving DecidableEq

/-- `Conversation` from store.go, without the timestamps (which only feed
the abstract serialized-size function). -/
structure Conversation where
  id : String
  messages : List Message
  deriving DecidableEq

/-- `StreamToolCall` from client.go: one tool-call fragment of a stream
delta, carrying the index and possibly partial id/type/name/arguments. -/
structure StreamToolCall where
  index : Int
  id : String
  type : String
  function : FunctionCall
  deriving DecidableEq

/-- `StreamChunk` from client.go: a unit delivered on the stream channel. -/
structure StreamChunk where
  content : String
  toolCalls : List ToolCall
  finishReason : String
  err : Option String
  deriving DecidableEq

/-- The per-choice delta decoded from one SSE `data:` payload
(the anonymous `streamResp` struct in `ChatStreamWithTools`). -/
structure ChoiceDelta where
  index : Int
  finishReason : String
  content : Option String
  toolCalls : List StreamToolCall
  deriving DecidableEq

/-- The decoded SSE payload (`streamResp`): a list of choice deltas. -/
structure StreamResp where
  choices : List ChoiceDelta
  deriving DecidableEq

/-- The `map[int]*ToolCall` accumulator, as an association list with
pairwise-distinct keys (insertion only happens on a missed lookup). -/
abbrev TCMap : Type := List (Int × ToolCall)

/-- Map lookup, `toolCallsMap[i]`. -/
def tcmLookup : TCMap → Int → Option ToolCall
  | [], _ => none
  | (j, tc) :: rest, i => if j = i then some tc else tcmLookup rest i

/-- Map size, `len(toolCallsMap)`. -/
def tcmLen (m : TCMap) : Nat := List.length m

/-- In-place update `toolCallsMap[i].Function.Arguments += s`. -/
def tcmAppendArgs : TCMap → Int → String → TCMap
  | [], _, _ => []
  | (j, tc) :: rest, i, s =>
    if j = i then
      (j, { tc with function := { tc.function with arguments := tc.function.arguments ++ s } }) :: rest
    else
      (j, tc) :: tcmAppendArgs rest i s

/-- One iteration of the fragment loop in `ChatStreamWithTools`
(client.go lines 216-230): a missing index installs id/type/name/arguments
from the fragment, an existing index only appends the arguments substring. -/
def accStep (m : TCMap) (f : StreamToolCall) : TCMap :=
  match tcmLookup m f.index with
  | none => m ++ [(f.index, ⟨f.id, f.type, ⟨f.function.name, f.function.arguments⟩⟩)]
  | some _ => tcmAppendArgs m f.index f.function.arguments

/-- Accumulating a list of fragments (the inner `for _, tc := range
choice.Delta.ToolCalls` loop, iterated over the whole stream). -/
def accumToolCalls (m : TCMap) (fs : List StreamToolCall) : TCMap :=
  fs.foldl accStep m

/-- Emission of the accumulated tool calls when the finish reason is
"tool_calls" (client.go lines 233-241): `for i := 0; i < len(map); i++`
collecting the hits. -/
def emitToolCalls (m : TCMap) : List ToolCall :=
  (List.range (tcmLen m)).filterMap (fun i => tcmLookup m (Int.ofNat i))

/-- Left fold of arguments substrings onto an initial string, the shape
`arguments += fragment.arguments` takes over a fragment list. -/
def argsFoldl (init : String) (fs : List StreamToolCall) : String :=
  fs.foldl (fun a f => a ++ f.function.arguments) init

/-- The `data: ` line filter: `strings.HasPrefix(line, "data: ")` plus
`strings.TrimPrefix(line, "data: ")`. Stated over the character list of
the line; the prefix is pure ASCII, so Go's byte-level comparison and the
character-level comparison agree. -/
def sseData (line : String) : Option String :=
  if line.data.take 6 = ("data: ").data then some (String.mk (line.data.drop 6)) else none

/-- A chunk carrying only an error, `StreamChunk{Err: ...}`. -/
def mkErrChunk (e : String) : StreamChunk := ⟨"", [], "", some e⟩

/-- The scanner loop of `ChatStreamWithTools` (client.go lines 175-251),
as a function from the scanned lines (plus the scanner's final error, if
any) to the sequence of chunks sent on the channel before it closes.
`decode` abstracts `json.Unmarshal` of one `data:` payload. -/
def runStream (decode : String → Except String StreamResp) (m : TCMap)
    (scanErr : Option String) : List String → List StreamChunk
  | [] =>
    match scanErr with
    | some e => [mkErrChunk ("failed to read stream: " ++ e)]
    | none => []
  | line :: rest =>
    match sseData line with
    | none => runStream decode m scanErr rest
    | some d =>
      if d = "[DONE]" then []
      else
        match decode d with
        | .error e => [mkErrChunk ("failed to parse SSE data: " ++ e)]
        | .ok resp =>
          match resp.choices with
          | [] => runStream decode m scanErr rest
          | choice :: _ =>
            let content :=
              match choice.content with
              | some c => c
              | none => ""
            let m2 := accumToolCalls m choice.toolCalls
            let tcs := if choice.finishReason = "tool_calls" then emitToolCalls m2 else []
            if content ≠ "" ∨ choice.finishReason ≠ "" ∨ tcs ≠ [] then
              (⟨content, tcs, choice.finishReason, none⟩ : StreamChunk) :: runStream decode m2 scanErr rest
            else
              runStream decode m2 scanErr rest

/-- The result of `httpClient.Do` for the streaming request: status code,
body (read only on a non-200 status), the scanned SSE lines of the body,
and the scanner's final error. -/
structure HTTPResp where
  status : Int
  body : String
  lines : List String
  scanErr : Option String

/-- `ChatStreamWithTools` up to and including stream processing
(client.go lines 156-255): a transport error or a non-200 status is
returned as a function-level error and no channel is ever created; only
on a 200 status is the channel (here: the chunk list) produced. -/
def chatStreamBegin (decode : String → Except String StreamResp)
    (doRes : Except String HTTPResp) : Except String (List StreamChunk) :=
  match doRes with
  | .error e => .error ("failed to make request: " ++ e)
  | .ok r =>
    if r.status ≠ 200 then
      .error ("API error (status " ++ toString r.status ++ "): " ++ r.body)
    else
      .ok (runStream decode [] r.scanErr r.lines)

/-- A concrete trivial decoder, used for closed instances. -/
def decodeTrivial : String → Except String StreamResp :=
  fun _ => .ok ⟨[]⟩

/-- Go's `%q` escaping of a character list (quote and backslash escaped;
the remaining `%q` escapes concern control and non-printable characters,
which the claims do not exercise). -/
def qEscape : List Char → List Char
  | [] => []
  | c :: cs => if c = '"' ∨ c = '\\' then '\\' :: c :: qEscape cs else c :: qEscape cs

/-- `fmt.Sprintf("%q", s)`: the quoted form of `s`. -/
def goQuote (s : String) : String :=
  String.mk ('"' :: qEscape s.data ++ ['"'])

/-- The `{"error": %q}` JSON object `Execute` returns when a dispatched
domain operation fails (tools.go line 321). -/
def opErrJSON (msg : String) : String :=
  "\x7b\"error\": " ++ goQuote msg ++ "\x7d"

/-- The environment of `Execute`: `json.Unmarshal` of the arguments
string, the nil argument map left by an empty arguments string, the
twelve database-backed domain operations of the dispatch table, and
`json.Marshal` of a successful result. `Args` and `Res` stay abstract
because the domain operations live outside the chatbot package. -/
structure ToolEnv (Args Res : Type) where
  parseArgs : String → Except String Args
  noArgs : Args
  marshal : Res → Except String String
  queryDevices : Args → Except String Res
  getDevice : Args → Except String Res
  createDevice : Args → Except String Res
  updateDevice : Args → Except String Res
  addDeviceNote : Args → Except String Res
  queryModels : Args → Except String Res
  getModel : Args → Except String Res
  createModel : Args → Except String Res
  updateModel : Args → Except String Res
  getStatuses : Except String Res
  getLocations : Except String Res
  getStats : Except String Res

/-- The `switch name` dispatch table of `Execute` (tools.go lines
291-318); `none` is the `default` branch. -/
def dispatchTool {Args Res : Type} (env : ToolEnv Args Res) (name : String) (args : Args) :
    Option (Except String Res) :=
  match name with
  | "query_devices" => some (env.queryDevices args)
  | "get_device" => some (env.getDevice args)
  | "create_device" => some (env.createDevice args)
  | "update_device" => some (env.updateDevice args)
  | "add_device_note" => some (env.addDeviceNote args)
  | "query_models" => some (env.queryModels args)
  | "get_model" => some (env.getModel args)
  | "create_model" => some (env.createModel args)
  | "update_model" => some (env.updateModel args)
  | "get_statuses" => some env.getStatuses
  | "get_locations" => some env.getLocations
  | "get_stats" => some env.getStats
  | _ => none

/-- The names of the dispatch table. -/
def toolNames : List String :=
  ["query_devices", "get_device", "create_device", "update_device",
   "add_device_note", "query_models", "get_model", "create_model",
   "update_model", "get_statuses", "get_locations", "get_stats"]

/-- `Execute` after argument parsing: dispatch, fold a domain error into
an `{"error": ...}` success, marshal a domain success. -/
def executeToolWith {Args Res : Type} (env : ToolEnv Args Res) (name : String) (args : Args) :
    Except String String :=
  match dispatchTool env name args with
  | none => .error ("unknown tool: " ++ name)
  | some (.error e) => .ok (opErrJSON e)
  | some (.ok res) =>
    match env.marshal res with
    | .error e => .error ("failed to marshal result: " ++ e)
    | .ok s => .ok s

/-- `ToolExecutor.Execute` (tools.go lines 280-330): an empty arguments
string skips parsing and leaves the nil map; a parse failure is a hard
error; then the post-parse phase runs. -/
def executeTool {Args Res : Type} (env : ToolEnv Args Res) (name arguments : String) :
    Except String String :=
  match (if arguments = "" then .ok env.noArgs else env.parseArgs arguments) with
  | .error e => .error ("failed to parse arguments: " ++ e)
  | .ok args => executeToolWith env name args

/-- A concrete trivial executor environment, used for closed instances. -/
def envTrivial : ToolEnv Unit Unit :=
  ⟨fun _ => .error ("bad json"), (), fun _ => .ok ("\x7b\x7d"),
   fun _ => .ok (), fun _ => .ok (), fun _ => .ok (), fun _ => .ok (),
   fun _ => .ok (), fun _ => .ok (), fun _ => .ok (), fun _ => .ok (),
   fun _ => .ok (), .ok (), .ok (), .error ("server error")⟩

/-- `ServerMessage` from protocol.go. -/
structure ServerMessage where
  type : String
  content : String
  conversationID : String
  titleSummary : String
  error : String
  deriving DecidableEq

/-- A `text` protocol message carrying a content delta. -/
def mkTextMsg (c : String) : ServerMessage := ⟨"text", c, "", "", ""⟩

/-- The terminal `done` protocol message carrying the conversation id. -/
def mkDoneMsg (convID : String) : ServerMessage := ⟨"done", "", convID, "", ""⟩

/-- An `error` protocol message (`Handler.sendError`). -/
def mkErrorMsg (e : String) : ServerMessage := ⟨"error", "", "", "", e⟩

/-- `toolResult` from handler.go. -/
structure ToolResult where
  id : String
  name : String
  content : String
  deriving DecidableEq

/-- The `{"error": "` + err.Error() + `"}` folding of a hard executor
error inside the tool loop (handler.go line 207; plain concatenation,
unlike the `%q` used inside `Execute`). -/
def hardErrJSON (e : String) : String :=
  "\x7b\"error\": \"" ++ e ++ "\"\x7d"

/-- The content a tool-role message receives from one executor outcome:
the result on success, the folded error JSON on a hard error. -/
def toolContent : Except String String → String
  | .ok c => c
  | .error e => hardErrJSON e

/-- `Handler.executeToolsSequential` (handler.go lines 201-217). The
executor's database effects are threaded through an explicit state `St`:
each call runs on the state its predecessor left behind, in the order of
the requested tool-call list. -/
def executeToolsSeq {St : Type} (exec : St → String → String → St × Except String String) :
    St → List ToolCall → St × List ToolResult
  | st, [] => (st, [])
  | st, call :: rest =>
    let r := exec st call.function.name call.function.arguments
    let next := executeToolsSeq exec r.1 rest
    (next.1, ⟨call.id, call.function.name, toolContent r.2⟩ :: next.2)

/-- The state reached after executing a list of tool calls in order. -/
def execStates {St : Type} (exec : St → String → String → St × Except String String)
    (st : St) (calls : List ToolCall) : St :=
  calls.foldl (fun s c => (exec s c.function.name c.function.arguments).1) st

/-- The assistant message rebuilt from one streamed round (handler.go
lines 144-150): content only when non-empty, tool calls as accumulated. -/
def assistantMsgOf (fullContent : String) (toolCalls : List ToolCall) : Message :=
  ⟨"assistant", if fullContent = "" then none else some fullContent, toolCalls, "", ""⟩

/-- The tool-role message appended for one tool result (handler.go lines
166-171). -/
def toolMsgOf (tr : ToolResult) : Message :=
  ⟨"tool", some tr.content, [], tr.id, tr.name⟩

/-- The accumulator of the chunk-consuming loop of one round (handler.go
lines 110-141): full content, current tool-call list, current finish
reason, and the protocol messages written so far. -/
structure RoundAcc where
  fullContent : String
  toolCalls : List ToolCall
  finishReason : String
  outs : List ServerMessage
  deriving DecidableEq

/-- The chunk-consuming loop of one round: an error chunk aborts the turn
with a `Stream error` protocol message; a content chunk is forwarded to
the client immediately and appended to the full content; a non-empty
tool-call list replaces the current one; a non-empty finish reason
replaces the current one. -/
def consumeChunks (acc : RoundAcc) : List StreamChunk → Except (List ServerMessage) RoundAcc
  | [] => .ok acc
  | c :: rest =>
    match c.err with
    | some e => .error (acc.outs ++ [mkErrorMsg ("Stream error: " ++ e)])
    | none =>
      let acc1 :=
        if c.content ≠ "" then
          { acc with
            fullContent := acc.fullContent ++ c.content
            outs := acc.outs ++ [mkTextMsg c.content] }
        else acc
      let acc2 := if c.toolCalls ≠ [] then { acc1 with toolCalls := c.toolCalls } else acc1
      let acc3 := if c.finishReason ≠ "" then { acc2 with finishReason := c.finishReason } else acc2
      consumeChunks acc3 rest

/-- Result of the model-call/tool-execution loop: either the turn aborted
with the protocol messages written (the handler returns early), or the
loop finished with the executor state, the full message history, the new
messages of this turn, the protocol messages written, and the number of
model calls made. -/
inductive LoopRes (St : Type) where
  | aborted (outs : List ServerMessage) (calls : Nat)
  | finished (st : St) (messages newMessages : List Message) (outs : List ServerMessage) (calls : Nat)

/-- Bump the model-call count of a loop result by one. -/
def bumpCalls {St : Type} : LoopRes St → LoopRes St
  | .aborted outs k => .aborted outs (k + 1)
  | .finished st m n outs k => .finished st m n outs (k + 1)

/-- The `for i := 0; i < maxIterations; i++` loop of `ServeHTTP`
(handler.go lines 101-175). `rounds i` abstracts the chunk sequence the
`i`-th `ChatStreamWithTools` call delivers (or its function-level error);
`remaining` is `maxIterations - i`. -/
def chatLoop {St : Type} (rounds : Nat → Except String (List StreamChunk))
    (exec : St → String → String → St × Except String String)
    (st : St) (messages newMessages : List Message) (outs : List ServerMessage)
    (callIdx : Nat) : Nat → LoopRes St
  | 0 => .finished st messages newMessages outs 0
  | r + 1 =>
    match rounds callIdx with
    | .error e => .aborted (outs ++ [mkErrorMsg ("AI request failed: " ++ e)]) 1
    | .ok chunks =>
      match consumeChunks ⟨"", [], "", outs⟩ chunks with
      | .error outsErr => .aborted outsErr 1
      | .ok acc =>
        let aMsg := assistantMsgOf acc.fullContent acc.toolCalls
        let messages2 := messages ++ [aMsg]
        let newMessages2 := newMessages ++ [aMsg]
        if acc.finishReason = "stop" ∨ acc.toolCalls = [] then
          .finished st messages2 newMessages2 acc.outs 1
        else
          let ex := executeToolsSeq exec st acc.toolCalls
          let tmsgs := ex.2.map toolMsgOf
          bumpCalls (chatLoop rounds exec ex.1 (messages2 ++ tmsgs) (newMessages2 ++ tmsgs)
            acc.outs (callIdx + 1) r)

/-- The observable outcome of `ServeHTTP` from the loop on: protocol
messages written, the `AddMessages` call made into the store (id and
messages), and the number of model calls. -/
structure HandlerOut where
  outs : List ServerMessage
  saved : Option (String × List Message)
  modelCalls : Nat

/-- `ServeHTTP` from the message build to the `done` message (handler.go
lines 80-192): build the history with the system prompt, the stored
conversation and the user message; run the loop with `maxIterations :=
10`; on normal exit commit (`commitOk` abstracts `tx.Commit`), save the
new messages into the store and send `done` with the conversation id. -/
def runHandler {St : Type} (rounds : Nat → Except String (List StreamChunk))
    (exec : St → String → String → St × Except String String) (st : St)
    (sysPrompt : String) (conv : Conversation) (userMsg : String) (commitOk : Bool) :
    HandlerOut :=
  let userM : Message := ⟨"user", some userMsg, [], "", ""⟩
  let messages := (⟨"system", some sysPrompt, [], "", ""⟩ : Message) :: (conv.messages ++ [userM])
  let newMessages := [userM]
  match chatLoop rounds exec st messages newMessages [] 0 10 with
  | .aborted outs k => ⟨outs, none, k⟩
  | .finished _ _ newMsgs outs k =>
    if commitOk then ⟨outs ++ [mkDoneMsg conv.id], some (conv.id, newMsgs), k⟩
    else ⟨outs ++ [mkErrorMsg ("Failed to save changes")], none, k⟩

/-- `cacheEntry` from store.go: id, conversation, last-computed
serialized byte size. -/
structure CacheEntry where
  id : String
  conv : Conversation
  bytes : Nat
  deriving DecidableEq

/-- `LRUStore` from store.go. The `container/list` ordering and the
id-to-element map are represented by one entry list, head = least
recently used (Go's `Back`), last = most recently used (Go's `Front`). -/
structure LRUStore where
  maxBytes : Int
  curBytes : Int
  lru : List CacheEntry
  deriving DecidableEq

/-- `NewLRUStore`. -/
def newLRUStore (maxBytes : Int) : LRUStore := ⟨maxBytes, 0, []⟩

/-- Sum of the entries' `bytes` fields. -/
def sumBytes (l : List CacheEntry) : Int :=
  (l.map (fun e => (e.bytes : Int))).sum

/-- The id lookup `s.cache[id]` (first matching entry). -/
def findConv : List CacheEntry → String → Option CacheEntry
  | [], _ => none
  | e :: rest, i => if e.id = i then some e else findConv rest i

/-- Removal of the entry with the given id (first occurrence). -/
def removeConv : List CacheEntry → String → List CacheEntry
  | [], _ => []
  | e :: rest, i => if e.id = i then rest else e :: removeConv rest i

/-- `evictIfNeeded` (store.go lines 174-185): while the running total
plus the additional bytes exceeds the budget and entries remain, drop the
least-recently-used entry and subtract its bytes. -/
def evictFrom (maxB addl cur : Int) : List CacheEntry → Int × List CacheEntry
  | [] => (cur, [])
  | e :: rest =>
    if maxB < cur + addl then evictFrom maxB addl (cur - (e.bytes : Int)) rest
    else (cur, e :: rest)

/-- `LRUStore.Get` (store.go lines 113-122): a hit is promoted to most
recently used and returned; a miss returns absent. The error component is
`nil` on every path. -/
def lruGet (s : LRUStore) (id : String) : Option Conversation × LRUStore × Option String :=
  match findConv s.lru id with
  | some e => (some e.conv, ⟨s.maxBytes, s.curBytes, removeConv s.lru id ++ [e]⟩, none)
  | none => (none, s, none)

/-- `LRUStore.Create` (store.go lines 125-146): a fresh conversation with
the generated id (`randKey(32)` abstracted as the `newID` parameter) and
an empty message list; eviction runs with the new entry's size as the
additional bytes, then the entry is inserted at the most-recently-used
position. `size` abstracts `estimateBytes` (`json.Marshal` length). -/
def lruCreate (size : Conversation → Nat) (s : LRUStore) (newID : String) :
    Conversation × LRUStore × Option String :=
  let conv : Conversation := ⟨newID, []⟩
  let b := size conv
  let ev := evictFrom s.maxBytes (b : Int) s.curBytes s.lru
  (conv, ⟨s.maxBytes, ev.1 + (b : Int), ev.2 ++ [⟨newID, conv, b⟩]⟩, none)

/-- `LRUStore.AddMessages` (store.go lines 149-172): unknown id is a
no-op; otherwise the messages are appended, the size recomputed in full,
the running total adjusted by the delta, the entry promoted, and the
eviction pass run with no additional bytes. -/
def lruAddMessages (size : Conversation → Nat) (s : LRUStore) (id : String)
    (msgs : List Message) : LRUStore × Option String :=
  match findConv s.lru id with
  | none => (s, none)
  | some e =>
    let conv2 : Conversation := ⟨e.conv.id, e.conv.messages ++ msgs⟩
    let nb := size conv2
    let cur2 := s.curBytes + (nb : Int) - (e.bytes : Int)
    let lru2 := removeConv s.lru id ++ [⟨e.id, conv2, nb⟩]
    let ev := evictFrom s.maxBytes 0 cur2 lru2
    (⟨s.maxBytes, ev.1, ev.2⟩, none)

/-- The store's byte-accounting invariant: the running total equals the
sum of the entries' last-computed sizes. -/
def StoreInv (s : LRUStore) : Prop := s.curBytes = sumBytes s.lru

/-- The budget property: within budget, except when the cache holds a
single entry whose own size exceeds the budget. -/
def BudgetOK (s : LRUStore) : Prop :=
  s.curBytes ≤ s.maxBytes ∨ ∃ e, s.lru = [e] ∧ s.maxBytes < (e.bytes : Int)

/-- Decoder for the C2 failing input: two SSE payloads, the first carries
a complete fragment at index 0, the second a complete fragment at index 2
together with the `tool_calls` finish reason. -/
def decodeC2 : String → Except String StreamResp := fun s =>
  if s = "one" then
    .ok ⟨[⟨0, "", none, [⟨0, "call_a", "function", ⟨"get_stats", "\x7b\x7d"⟩⟩]⟩]⟩
  else if s = "two" then
    .ok ⟨[⟨0, "tool_calls", none, [⟨2, "call_b", "function", ⟨"get_device", "\x7b\"id\": 5\x7d"⟩⟩]⟩]⟩
  else .error ("unexpected")

/-- An executor whose every call fails hard (e.g. unknown tool name or
unparseable arguments). -/
def execAlwaysHardError : Unit → String → String → Unit × Except String String :=
  fun s _ _ => (s, .error ("unknown tool: foo"))

/-- Model rounds for the C10 scenario: round 0 requests one tool call,
round 1 answers with plain content and finish reason "stop". -/
def roundsC10 : Nat → Except String (List StreamChunk) := fun i =>
  if i = 0 then
    .ok [⟨"", [⟨"c1", "function", ⟨"foo", ""⟩⟩], "tool_calls", none⟩]
  else
    .ok [⟨"All done.", [], "stop", none⟩]

/-- Error chunks appear only as the final chunk before the channel
closes: every chunk except possibly the last is error-free. -/
def lastOnlyErr (L : List StreamChunk) : Prop := ∀ c ∈ L.dropLast, c.err = none

/-! ## Theorems -/

example :
    accumToolCalls []
      [⟨0, "a", "function", ⟨"get_stats", "\x7b\"x\""⟩⟩,
       ⟨0, "", "", ⟨"", ": 1\x7d"⟩⟩] =
      [(0, ⟨"a", "function", ⟨"get_stats", "\x7b\"x\": 1\x7d"⟩⟩)] := by
  decide

example :
    emitToolCalls
      [(0, ⟨"a", "function", ⟨"get_stats", ""⟩⟩),
       (2, ⟨"b", "function", ⟨"get_device", ""⟩⟩)] =
      [⟨"a", "function", ⟨"get_stats", ""⟩⟩] := by
  decide

example : runStream decodeTrivial [] none ["data: [DONE]"] = [] := by decide

example : executeTool envTrivial "get_stats" "" = .ok (opErrJSON "server error") := by rfl

example : executeTool envTrivial "bogus" "" = .error ("unknown tool: bogus") := by rfl

example :
    ((lruCreate (fun _ => 400)
      (lruCreate (fun _ => 400)
        (lruCreate (fun _ => 400) (newLRUStore 1000) "A").2.1 "B").2.1 "C").2.1).lru.map
        (fun e => e.id) = ["B", "C"] := by
  decide

theorem tcmLookup_append (m m2 : TCMap) (i : Int) :
    tcmLookup (m ++ m2) i =
      (match tcmLookup m i with
       | some tc => some tc
       | none => tcmLookup m2 i) := by
  induction m with
  | nil => simp [tcmLookup]
  | cons e rest ih =>
    obtain ⟨j, tc⟩ := e
    by_cases h : j = i
    · simp [tcmLookup, h]
    · simp [tcmLookup, h, ih]

theorem tcmLookup_appendArgs_self (m : TCMap) (i : Int) (s : String) (cur : ToolCall)
    (h : tcmLookup m i = some cur) :
    tcmLookup (tcmAppendArgs m i s) i =
      some ⟨cur.id, cur.type, ⟨cur.function.name, cur.function.arguments ++ s⟩⟩ := by
  induction m with
  | nil => simp [tcmLookup] at h
  | cons e rest ih =>
    obtain ⟨j, tc⟩ := e
    by_cases hj : j = i
    · simp [tcmLookup, hj] at h
      subst h
      simp [tcmAppendArgs, tcmLookup, hj]
    · simp [tcmLookup, hj] at h
      simp [tcmAppendArgs, tcmLookup, hj, ih h]

theorem tcmLookup_appendArgs_ne (m : TCMap) (j i : Int) (s : String) (h : j ≠ i) :
    tcmLookup (tcmAppendArgs m j s) i = tcmLookup m i := by
  induction m with
  | nil => simp [tcmAppendArgs]
  | cons e rest ih =>
    obtain ⟨k, tc⟩ := e
    by_cases hk : k = j
    · subst hk
      simp [tcmAppendArgs, tcmLookup, h]
    · by_cases hki : k = i
      · subst hki
        simp [tcmAppendArgs, tcmLookup, hk]
      · simp [tcmAppendArgs, tcmLookup, hk, hki, ih]

theorem accStep_lookup_ne (m : TCMap) (f : StreamToolCall) (i : Int) (h : f.index ≠ i) :
    tcmLookup (accStep m f) i = tcmLookup m i := by
  unfold accStep
  cases hm : tcmLookup m f.index with
  | none =>
    rw [tcmLookup_append]
    cases hmi : tcmLookup m i with
    | none => simp [tcmLookup, h]
    | some tc => simp
  | some tc => exact tcmLookup_appendArgs_ne m f.index i _ h

theorem accum_present (fs : List StreamToolCall) :
    ∀ (m : TCMap) (cur : ToolCall) (i : Int), tcmLookup m i = some cur →
      tcmLookup (accumToolCalls m fs) i =
        some ⟨cur.id, cur.type,
          ⟨cur.function.name,
           argsFoldl cur.function.arguments (fs.filter (fun f => f.index == i))⟩⟩ := by
  induction fs with
  | nil =>
    intro m cur i h
    obtain ⟨cid, cty, ⟨cfn, cfa⟩⟩ := cur
    simpa [accumToolCalls, argsFoldl] using h
  | cons f fs ih =>
    intro m cur i h
    by_cases hf : f.index = i
    · have hfc : List.filter (fun g => g.index == i) (f :: fs) =
          f :: List.filter (fun g => g.index == i) fs := by
        simp [List.filter_cons, hf]
      have hstep : tcmLookup (accStep m f) i =
          some ⟨cur.id, cur.type, ⟨cur.function.name,
            cur.function.arguments ++ f.function.arguments⟩⟩ := by
        unfold accStep
        rw [hf, h]
        exact tcmLookup_appendArgs_self m i _ cur h
      have hrec := ih (accStep m f) _ i hstep
      rw [hfc]
      simpa [accumToolCalls, argsFoldl] using hrec
    · have hfc : List.filter (fun g => g.index == i) (f :: fs) =
          List.filter (fun g => g.index == i) fs := by
        simp [List.filter_cons, hf]
      have hstep := accStep_lookup_ne m f i hf
      have hrec := ih (accStep m f) cur i (hstep.trans h)
      rw [hfc]
      simpa [accumToolCalls] using hrec

theorem accum_absent (fs : List StreamToolCall) :
    ∀ (m : TCMap) (i : Int), tcmLookup m i = none →
      ∀ (f0 : StreamToolCall) (rest : List StreamToolCall),
        fs.filter (fun f => f.index == i) = f0 :: rest →
        tcmLookup (accumToolCalls m fs) i =
          some ⟨f0.id, f0.type, ⟨f0.function.name, argsFoldl f0.function.arguments rest⟩⟩ := by
  induction fs with
  | nil => intro m i _ f0 rest hfil; simp [List.filter] at hfil
  | cons f fs ih =>
    intro m i hm f0 rest hfil
    by_cases hf : f.index = i
    · have hfc : List.filter (fun g => g.index == i) (f :: fs) =
          f :: List.filter (fun g => g.index == i) fs := by
        simp [List.filter_cons, hf]
      rw [hfc] at hfil
      injection hfil with hf0 hrest
      have hstep : tcmLookup (accStep m f) i =
          some ⟨f.id, f.type, ⟨f.function.name, f.function.arguments⟩⟩ := by
        unfold accStep
        rw [hf, hm, tcmLookup_append]
        simp [hm, tcmLookup]
      have hrec := accum_present fs (accStep m f) _ i hstep
      subst hf0
      rw [← hrest]
      simpa [accumToolCalls] using hrec
    · have hfc : List.filter (fun g => g.index == i) (f :: fs) =
          List.filter (fun g => g.index == i) fs := by
        simp [List.filter_cons, hf]
      rw [hfc] at hfil
      have hstep := accStep_lookup_ne m f i hf
      have hrec := ih (accStep m f) i (hstep.trans hm) f0 rest hfil
      simpa [accumToolCalls] using hrec

/-- C1: In `ChatStreamWithTools`, for every tool-call index `i` and every
fragment sequence, the accumulated `ToolCall` at `i` takes its id, type
and function name from the first fragment carrying index `i`, and its
arguments string is the concatenation (left fold of `++`) of all those
fragments' arguments substrings in arrival order — so any split of an
original arguments string is reassembled exactly. -/
theorem chatStream_fragment_accumulation (frags : List StreamToolCall) (i : Int)
    (f0 : StreamToolCall) (rest : List StreamToolCall)
    (hfil : frags.filter (fun f => f.index == i) = f0 :: rest) :
    tcmLookup (accumToolCalls [] frags) i =
      some ⟨f0.id, f0.type, ⟨f0.function.name, argsFoldl f0.function.arguments rest⟩⟩ :=
  accum_absent frags [] i rfl f0 rest hfil

/-- Witness for C1: the arguments string `{"id": 5}` split into three
fragments at index 0, interleaved with a fragment at index 1, reassembles
exactly; id/type/name come from the first index-0 fragment. -/
theorem chatStream_fragment_accumulation_witness :
    ([⟨0, "call_a", "function", ⟨"get_device", "\x7b\"id\""⟩⟩,
      ⟨1, "call_b", "function", ⟨"get_stats", "\x7b\x7d"⟩⟩,
      ⟨0, "", "", ⟨"", ": 5"⟩⟩,
      ⟨0, "", "", ⟨"", "\x7d"⟩⟩] : List StreamToolCall).filter (fun f => f.index == 0) =
        ⟨0, "call_a", "function", ⟨"get_device", "\x7b\"id\""⟩⟩ ::
          [⟨0, "", "", ⟨"", ": 5"⟩⟩, ⟨0, "", "", ⟨"", "\x7d"⟩⟩] ∧
    tcmLookup
      (accumToolCalls []
        [⟨0, "call_a", "function", ⟨"get_device", "\x7b\"id\""⟩⟩,
         ⟨1, "call_b", "function", ⟨"get_stats", "\x7b\x7d"⟩⟩,
         ⟨0, "", "", ⟨"", ": 5"⟩⟩,
         ⟨0, "", "", ⟨"", "\x7d"⟩⟩]) 0 =
      some ⟨"call_a", "function", ⟨"get_device", "\x7b\"id\": 5\x7d"⟩⟩ :=
  ⟨by decide,
   (chatStream_fragment_accumulation
      [⟨0, "call_a", "function", ⟨"get_device", "\x7b\"id\""⟩⟩,
       ⟨1, "call_b", "function", ⟨"get_stats", "\x7b\x7d"⟩⟩,
       ⟨0, "", "", ⟨"", ": 5"⟩⟩,
       ⟨0, "", "", ⟨"", "\x7d"⟩⟩] 0
      ⟨0, "call_a", "function", ⟨"get_device", "\x7b\"id\""⟩⟩
      [⟨0, "", "", ⟨"", ": 5"⟩⟩, ⟨0, "", "", ⟨"", "\x7d"⟩⟩]
      (by decide)).trans (by decide)⟩

/-- C2 fails on the code: with accumulated tool calls at the
non-contiguous indices 0 and 2, the emission loop
`for i := 0; i < len(toolCallsMap); i++` visits only i = 0 and i = 1, so
the chunk emitted on the `tool_calls` finish reason carries only the
index-0 call even though the index-2 call is present in the accumulator
map — the emitted list does not contain every accumulated tool call. -/
theorem chatStream_emission_drops_noncontiguous :
    runStream decodeC2 [] none ["data: one", "data: two"] =
      [⟨"", [⟨"call_a", "function", ⟨"get_stats", "\x7b\x7d"⟩⟩], "tool_calls", none⟩] ∧
    tcmLookup
      (accumToolCalls []
        [⟨0, "call_a", "function", ⟨"get_stats", "\x7b\x7d"⟩⟩,
         ⟨2, "call_b", "function", ⟨"get_device", "\x7b\"id\": 5\x7d"⟩⟩]) 2 =
      some ⟨"call_b", "function", ⟨"get_device", "\x7b\"id\": 5\x7d"⟩⟩ := by
  constructor
  · decide
  · decide

theorem sumBytes_nil : sumBytes [] = 0 := rfl

theorem sumBytes_cons (e : CacheEntry) (l : List CacheEntry) :
    sumBytes (e :: l) = (e.bytes : Int) + sumBytes l := by
  simp [sumBytes]

theorem sumBytes_append (l1 l2 : List CacheEntry) :
    sumBytes (l1 ++ l2) = sumBytes l1 + sumBytes l2 := by
  simp [sumBytes]

theorem evictFrom_sum (maxB addl : Int) :
    ∀ (l : List CacheEntry) (cur : Int), cur = sumBytes l →
      (evictFrom maxB addl cur l).1 = sumBytes (evictFrom maxB addl cur l).2 := by
  intro l
  induction l with
  | nil => intro cur h; simpa [evictFrom, sumBytes] using h
  | cons e rest ih =>
    intro cur h
    rw [sumBytes_cons] at h
    by_cases hc : maxB < cur + addl
    · have := ih (cur - (e.bytes : Int)) (by omega)
      simpa [evictFrom, hc] using this
    · simpa [evictFrom, hc, sumBytes_cons] using h

theorem evictFrom_bound (maxB addl : Int) :
    ∀ (l : List CacheEntry) (cur : Int),
      (evictFrom maxB addl cur l).1 + addl ≤ maxB ∨ (evictFrom maxB addl cur l).2 = [] := by
  intro l
  induction l with
  | nil => intro cur; simp [evictFrom]
  | cons e rest ih =>
    intro cur
    by_cases hc : maxB < cur + addl
    · simpa [evictFrom, hc] using ih (cur - (e.bytes : Int))
    · left
      simp only [evictFrom, hc, if_false]
      omega

theorem findConv_sum :
    ∀ (l : List CacheEntry) (id : String) (e : CacheEntry), findConv l id = some e →
      sumBytes l = (e.bytes : Int) + sumBytes (removeConv l id) := by
  intro l
  induction l with
  | nil => intro id e h; simp [findConv] at h
  | cons a rest ih =>
    intro id e h
    by_cases ha : a.id = id
    · simp [findConv, ha] at h
      subst h
      simp [removeConv, ha, sumBytes_cons]
    · simp [findConv, ha] at h
      have := ih id e h
      simp [removeConv, ha, sumBytes_cons, this]
      omega

theorem lruGet_inv (s : LRUStore) (id : String) (h : StoreInv s) :
    StoreInv (lruGet s id).2.1 := by
  unfold lruGet
  cases hf : findConv s.lru id with
  | none => simpa using h
  | some e =>
    have hs := findConv_sum s.lru id e hf
    show s.curBytes = sumBytes (removeConv s.lru id ++ [e])
    rw [sumBytes_append, sumBytes_cons, sumBytes_nil]
    rw [StoreInv] at h
    omega

theorem lruGet_budget (s : LRUStore) (id : String) (h : BudgetOK s) :
    BudgetOK (lruGet s id).2.1 := by
  unfold lruGet
  cases hf : findConv s.lru id with
  | none => simpa using h
  | some e =>
    rcases h with hle | ⟨e0, hl, hb⟩
    · left
      exact hle
    · rw [hl] at hf
      simp only [findConv] at hf
      by_cases h0 : e0.id = id
      · rw [if_pos h0] at hf
        injection hf with hf
        subst hf
        right
        refine ⟨e0, ?_, hb⟩
        show removeConv s.lru id ++ [e0] = [e0]
        rw [hl]
        show (if e0.id = id then ([] : List CacheEntry) else e0 :: removeConv [] id) ++ [e0] = [e0]
        rw [if_pos h0]
        rfl
      · rw [if_neg h0] at hf
        exact absurd hf (by simp)

theorem lruCreate_inv (size : Conversation → Nat) (s : LRUStore) (newID : String)
    (h : StoreInv s) : StoreInv (lruCreate size s newID).2.1 := by
  have hs := evictFrom_sum s.maxBytes (size (⟨newID, []⟩ : Conversation) : Int) s.lru s.curBytes h
  show (evictFrom s.maxBytes (size (⟨newID, []⟩ : Conversation) : Int) s.curBytes s.lru).1 +
      (size (⟨newID, []⟩ : Conversation) : Int) =
    sumBytes ((evictFrom s.maxBytes (size (⟨newID, []⟩ : Conversation) : Int) s.curBytes s.lru).2 ++
      [⟨newID, ⟨newID, []⟩, size ⟨newID, []⟩⟩])
  rw [sumBytes_append, sumBytes_cons, sumBytes_nil]
  dsimp only
  omega

theorem lruCreate_budget (size : Conversation → Nat) (s : LRUStore) (newID : String)
    (h : StoreInv s) : BudgetOK (lruCreate size s newID).2.1 := by
  have hs := evictFrom_sum s.maxBytes (size (⟨newID, []⟩ : Conversation) : Int) s.lru s.curBytes h
  rcases evictFrom_bound s.maxBytes (size (⟨newID, []⟩ : Conversation) : Int) s.lru s.curBytes
    with hb | hnil
  · left
    show (evictFrom s.maxBytes (size (⟨newID, []⟩ : Conversation) : Int) s.curBytes s.lru).1 +
        (size (⟨newID, []⟩ : Conversation) : Int) ≤ s.maxBytes
    omega
  · by_cases hle : (size (⟨newID, []⟩ : Conversation) : Int) ≤ s.maxBytes
    · left
      show (evictFrom s.maxBytes (size (⟨newID, []⟩ : Conversation) : Int) s.curBytes s.lru).1 +
          (size (⟨newID, []⟩ : Conversation) : Int) ≤ s.maxBytes
      rw [hnil, sumBytes_nil] at hs
      omega
    · right
      refine ⟨⟨newID, ⟨newID, []⟩, size ⟨newID, []⟩⟩, ?_, ?_⟩
      · show (evictFrom s.maxBytes (size (⟨newID, []⟩ : Conversation) : Int) s.curBytes s.lru).2 ++
            [⟨newID, ⟨newID, []⟩, size ⟨newID, []⟩⟩] = [⟨newID, ⟨newID, []⟩, size ⟨newID, []⟩⟩]
        rw [hnil]
        rfl
      · show s.maxBytes < ((size (⟨newID, []⟩ : Conversation) : Nat) : Int)
        omega

theorem lruAddMessages_inv (size : Conversation → Nat) (s : LRUStore) (id : String)
    (msgs : List Message) (h : StoreInv s) : StoreInv (lruAddMessages size s id msgs).1 := by
  unfold lruAddMessages
  cases hf : findConv s.lru id with
  | none => simpa using h
  | some e =>
    have hrm := findConv_sum s.lru id e hf
    have hsum :
        s.curBytes + ((size (⟨e.conv.id, e.conv.messages ++ msgs⟩ : Conversation) : Nat) : Int) -
            (e.bytes : Int) =
          sumBytes (removeConv s.lru id ++
            [⟨e.id, ⟨e.conv.id, e.conv.messages ++ msgs⟩,
              size ⟨e.conv.id, e.conv.messages ++ msgs⟩⟩]) := by
      rw [sumBytes_append, sumBytes_cons, sumBytes_nil]
      dsimp only
      rw [StoreInv] at h
      omega
    exact evictFrom_sum s.maxBytes 0
      (removeConv s.lru id ++
        [⟨e.id, ⟨e.conv.id, e.conv.messages ++ msgs⟩, size ⟨e.conv.id, e.conv.messages ++ msgs⟩⟩])
      (s.curBytes + ((size (⟨e.conv.id, e.conv.messages ++ msgs⟩ : Conversation) : Nat) : Int) -
        (e.bytes : Int)) hsum

theorem lruAddMessages_budget (size : Conversation → Nat) (s : LRUStore) (id : String)
    (msgs : List Message) (h : StoreInv s) (hmax : 0 ≤ s.maxBytes) (hb : BudgetOK s) :
    BudgetOK (lruAddMessages size s id msgs).1 := by
  unfold lruAddMessages
  cases hf : findConv s.lru id with
  | none => simpa using hb
  | some e =>
    left
    have hrm := findConv_sum s.lru id e hf
    have hsum :
        s.curBytes + ((size (⟨e.conv.id, e.conv.messages ++ msgs⟩ : Conversation) : Nat) : Int) -
            (e.bytes : Int) =
          sumBytes (removeConv s.lru id ++
            [⟨e.id, ⟨e.conv.id, e.conv.messages ++ msgs⟩,
              size ⟨e.conv.id, e.conv.messages ++ msgs⟩⟩]) := by
      rw [sumBytes_append, sumBytes_cons, sumBytes_nil]
      dsimp only
      rw [StoreInv] at h
      omega
    show (evictFrom s.maxBytes 0
        (s.curBytes + ((size (⟨e.conv.id, e.conv.messages ++ msgs⟩ : Conversation) : Nat) : Int) -
          (e.bytes : Int))
        (removeConv s.lru id ++
          [⟨e.id, ⟨e.conv.id, e.conv.messages ++ msgs⟩,
            size ⟨e.conv.id, e.conv.messages ++ msgs⟩⟩])).1 ≤ s.maxBytes
    rcases evictFrom_bound s.maxBytes 0
        (removeConv s.lru id ++
          [⟨e.id, ⟨e.conv.id, e.conv.messages ++ msgs⟩,
            size ⟨e.conv.id, e.conv.messages ++ msgs⟩⟩])
        (s.curBytes + ((size (⟨e.conv.id, e.conv.messages ++ msgs⟩ : Conversation) : Nat) : Int) -
          (e.bytes : Int))
      with hle | hnil
    · omega
    · have hz := evictFrom_sum s.maxBytes 0
        (removeConv s.lru id ++
          [⟨e.id, ⟨e.conv.id, e.conv.messages ++ msgs⟩,
            size ⟨e.conv.id, e.conv.messages ++ msgs⟩⟩])
        (s.curBytes + ((size (⟨e.conv.id, e.conv.messages ++ msgs⟩ : Conversation) : Nat) : Int) -
          (e.bytes : Int)) hsum
      rw [hnil, sumBytes_nil] at hz
      omega

/-- C5: after every store operation (and hence between any two
operations) the running total equals the sum of the entries'
last-computed sizes; the total stays within the budget except when the
cache holds a single entry whose own size exceeds it; and in the concrete
scenario (budget 1000, conversations A, B, C created in order at 400
bytes each, untouched afterwards) creating C evicts exactly A, leaving
{B, C} with total 800. -/
theorem lruStore_byte_accounting :
    (∀ (s : LRUStore) (id : String), StoreInv s → StoreInv (lruGet s id).2.1) ∧
    (∀ (s : LRUStore) (id : String), BudgetOK s → BudgetOK (lruGet s id).2.1) ∧
    (∀ (size : Conversation → Nat) (s : LRUStore) (newID : String),
      StoreInv s → StoreInv (lruCreate size s newID).2.1) ∧
    (∀ (size : Conversation → Nat) (s : LRUStore) (newID : String),
      StoreInv s → BudgetOK (lruCreate size s newID).2.1) ∧
    (∀ (size : Conversation → Nat) (s : LRUStore) (id : String) (msgs : List Message),
      StoreInv s → StoreInv (lruAddMessages size s id msgs).1) ∧
    (∀ (size : Conversation → Nat) (s : LRUStore) (id : String) (msgs : List Message),
      StoreInv s → 0 ≤ s.maxBytes → BudgetOK s → BudgetOK (lruAddMessages size s id msgs).1) ∧
    ((lruCreate (fun _ => 400)
        (lruCreate (fun _ => 400)
          (lruCreate (fun _ => 400) (newLRUStore 1000) "A").2.1 "B").2.1 "C").2.1.lru.map
          (fun e => e.id) = ["B", "C"] ∧
      (lruCreate (fun _ => 400)
        (lruCreate (fun _ => 400)
          (lruCreate (fun _ => 400) (newLRUStore 1000) "A").2.1 "B").2.1 "C").2.1.curBytes = 800 ∧
      (lruGet (lruCreate (fun _ => 400)
        (lruCreate (fun _ => 400)
          (lruCreate (fun _ => 400) (newLRUStore 1000) "A").2.1 "B").2.1 "C").2.1 "A").1 = none) :=
  ⟨lruGet_inv, lruGet_budget, lruCreate_inv, lruCreate_budget,
   lruAddMessages_inv, lruAddMessages_budget,
   by decide, by decide, by decide⟩

/-- Witness for C5 at the concrete store holding one 400-byte entry with
budget 1000. -/
theorem lruStore_byte_accounting_witness :
    StoreInv (⟨1000, 400, [⟨"A", ⟨"A", []⟩, 400⟩]⟩ : LRUStore) ∧
    StoreInv (lruGet ⟨1000, 400, [⟨"A", ⟨"A", []⟩, 400⟩]⟩ "A").2.1 ∧
    BudgetOK (lruGet ⟨1000, 400, [⟨"A", ⟨"A", []⟩, 400⟩]⟩ "A").2.1 ∧
    StoreInv (lruCreate (fun _ => 400) ⟨1000, 400, [⟨"A", ⟨"A", []⟩, 400⟩]⟩ "B").2.1 ∧
    BudgetOK (lruCreate (fun _ => 400) ⟨1000, 400, [⟨"A", ⟨"A", []⟩, 400⟩]⟩ "B").2.1 ∧
    StoreInv (lruAddMessages (fun _ => 400) ⟨1000, 400, [⟨"A", ⟨"A", []⟩, 400⟩]⟩ "A" []).1 ∧
    BudgetOK (lruAddMessages (fun _ => 400) ⟨1000, 400, [⟨"A", ⟨"A", []⟩, 400⟩]⟩ "A" []).1 :=
  ⟨by unfold StoreInv; decide,
   lruStore_byte_accounting.1 _ "A" (by unfold StoreInv; decide),
   lruStore_byte_accounting.2.1 _ "A" (Or.inl (by decide)),
   lruStore_byte_accounting.2.2.1 (fun _ => 400) _ "B" (by unfold StoreInv; decide),
   lruStore_byte_accounting.2.2.2.1 (fun _ => 400) _ "B" (by unfold StoreInv; decide),
   lruStore_byte_accounting.2.2.2.2.1 (fun _ => 400) _ "A" [] (by unfold StoreInv; decide),
   lruStore_byte_accounting.2.2.2.2.2.1 (fun _ => 400) _ "A" [] (by unfold StoreInv; decide)
     (by decide) (Or.inl (by decide))⟩

/-- C8: every store operation returns a nil error on every input and
state; `Get` on an id not in the cache returns absent (nil conversation,
nil error) and leaves the store unchanged; `AddMessages` on an unknown id
is a no-op returning nil. -/
theorem lruStore_infallible :
    (∀ (s : LRUStore) (id : String), (lruGet s id).2.2 = none) ∧
    (∀ (size : Conversation → Nat) (s : LRUStore) (newID : String),
      (lruCreate size s newID).2.2 = none) ∧
    (∀ (size : Conversation → Nat) (s : LRUStore) (id : String) (msgs : List Message),
      (lruAddMessages size s id msgs).2 = none) ∧
    (∀ (s : LRUStore) (id : String), findConv s.lru id = none →
      lruGet s id = (none, s, none)) ∧
    (∀ (size : Conversation → Nat) (s : LRUStore) (id : String) (msgs : List Message),
      findConv s.lru id = none → lruAddMessages size s id msgs = (s, none)) := by
  refine ⟨?_, ?_, ?_, ?_, ?_⟩
  · intro s id
    unfold lruGet
    cases findConv s.lru id <;> rfl
  · intro size s newID
    rfl
  · intro size s id msgs
    unfold lruAddMessages
    cases findConv s.lru id <;> rfl
  · intro s id h
    unfold lruGet
    rw [h]
  · intro size s id msgs h
    unfold lruAddMessages
    rw [h]

/-- Witness for C8 on the empty store and an unknown id. -/
theorem lruStore_infallible_witness :
    lruGet (newLRUStore 1000) "x" = (none, newLRUStore 1000, none) ∧
    lruAddMessages (fun _ => 1) (newLRUStore 1000) "x" [] = (newLRUStore 1000, none) :=
  ⟨lruStore_infallible.2.2.2.1 (newLRUStore 1000) "x" (by decide),
   lruStore_infallible.2.2.2.2 (fun _ => 1) (newLRUStore 1000) "x" [] (by decide)⟩

/-- C9: if `AddMessages` grows the cache's sole entry beyond the budget,
the eviction pass removes that very entry — the just-updated conversation
is evicted and a subsequent `Get` on its id returns absent. Retention of
a single over-budget entry happens only at `Create`, whose eviction runs
before the new entry is inserted (the new entry is always retained). -/
theorem lruAddMessages_evicts_oversized_sole_entry :
    (∀ (size : Conversation → Nat) (maxB : Int) (id : String) (conv : Conversation)
        (b0 : Nat) (msgs : List Message),
      maxB < ((size (⟨conv.id, conv.messages ++ msgs⟩ : Conversation) : Nat) : Int) →
      (lruAddMessages size (⟨maxB, (b0 : Int), [⟨id, conv, b0⟩]⟩ : LRUStore) id msgs).1.lru = [] ∧
      (lruGet (lruAddMessages size (⟨maxB, (b0 : Int), [⟨id, conv, b0⟩]⟩ : LRUStore) id msgs).1
        id).1 = none) ∧
    (∀ (size : Conversation → Nat) (maxB : Int) (newID : String),
      maxB < ((size (⟨newID, []⟩ : Conversation) : Nat) : Int) →
      (lruCreate size (newLRUStore maxB) newID).2.1.lru =
        [⟨newID, ⟨newID, []⟩, size ⟨newID, []⟩⟩]) := by
  constructor
  · intro size maxB id conv b0 msgs hover
    have hfind : findConv [(⟨id, conv, b0⟩ : CacheEntry)] id = some ⟨id, conv, b0⟩ := by
      simp [findConv]
    have hlru :
        (lruAddMessages size (⟨maxB, (b0 : Int), [⟨id, conv, b0⟩]⟩ : LRUStore) id msgs).1.lru
          = [] := by
      unfold lruAddMessages
      rw [hfind]
      show (evictFrom maxB 0
          ((b0 : Int) + ((size (⟨conv.id, conv.messages ++ msgs⟩ : Conversation) : Nat) : Int) -
            (b0 : Int))
          (removeConv [⟨id, conv, b0⟩] id ++
            [⟨id, ⟨conv.id, conv.messages ++ msgs⟩,
              size ⟨conv.id, conv.messages ++ msgs⟩⟩])).2 = []
      have hrm : removeConv [(⟨id, conv, b0⟩ : CacheEntry)] id = [] := by
        simp [removeConv]
      rw [hrm]
      have hcur : (b0 : Int) +
          ((size (⟨conv.id, conv.messages ++ msgs⟩ : Conversation) : Nat) : Int) - (b0 : Int) =
          ((size (⟨conv.id, conv.messages ++ msgs⟩ : Conversation) : Nat) : Int) := by omega
      rw [hcur]
      show (if maxB < ((size (⟨conv.id, conv.messages ++ msgs⟩ : Conversation) : Nat) : Int) + 0
        then evictFrom maxB 0
          (((size (⟨conv.id, conv.messages ++ msgs⟩ : Conversation) : Nat) : Int) -
            ((⟨id, ⟨conv.id, conv.messages ++ msgs⟩,
              size ⟨conv.id, conv.messages ++ msgs⟩⟩ : CacheEntry).bytes : Int)) []
        else ((((size (⟨conv.id, conv.messages ++ msgs⟩ : Conversation) : Nat) : Int)),
          [⟨id, ⟨conv.id, conv.messages ++ msgs⟩,
            size ⟨conv.id, conv.messages ++ msgs⟩⟩])).2 = []
      rw [if_pos (by omega)]
      rfl
    refine ⟨hlru, ?_⟩
    unfold lruGet
    rw [hlru]
    rfl
  · intro size maxB newID _
    rfl

/-- Witness for C9: a sole 5-byte entry under a 10-byte budget grows to
20 bytes on `AddMessages` and is evicted; an oversized `Create` into an
empty store is retained. -/
theorem lruAddMessages_evicts_oversized_sole_entry_witness :
    ((10 : Int) < ((fun c => if c.messages = [] then 5 else 20)
        (⟨"A", [] ++ [(⟨"user", some "hi", [], "", ""⟩ : Message)]⟩ : Conversation) : Int) ∧
      (lruAddMessages (fun c => if c.messages = [] then 5 else 20)
        (⟨10, (5 : Int), [⟨"A", ⟨"A", []⟩, 5⟩]⟩ : LRUStore) "A"
        [⟨"user", some "hi", [], "", ""⟩]).1.lru = [] ∧
      (lruGet (lruAddMessages (fun c => if c.messages = [] then 5 else 20)
        (⟨10, (5 : Int), [⟨"A", ⟨"A", []⟩, 5⟩]⟩ : LRUStore) "A"
        [⟨"user", some "hi", [], "", ""⟩]).1 "A").1 = none) ∧
    ((10 : Int) < ((fun _ => 20) (⟨"B", []⟩ : Conversation) : Int) ∧
      (lruCreate (fun _ => 20) (newLRUStore 10) "B").2.1.lru = [⟨"B", ⟨"B", []⟩, 20⟩]) :=
  ⟨⟨by decide,
    lruAddMessages_evicts_oversized_sole_entry.1
      (fun c => if c.messages = [] then 5 else 20) 10 "A" ⟨"A", []⟩ 5
      [⟨"user", some "hi", [], "", ""⟩] (by decide)⟩,
   ⟨by decide,
    lruAddMessages_evicts_oversized_sole_entry.2 (fun _ => 20) 10 "B" (by decide)⟩⟩

theorem executeToolsSeq_length {St : Type}
    (exec : St → String → String → St × Except String String) :
    ∀ (calls : List ToolCall) (st : St), (executeToolsSeq exec st calls).2.length = calls.length := by
  intro calls
  induction calls with
  | nil => intro st; rfl
  | cons c cs ih => intro st; simp [executeToolsSeq, ih]

theorem executeToolsSeq_state {St : Type}
    (exec : St → String → String → St × Except String String) :
    ∀ (calls : List ToolCall) (st : St),
      (executeToolsSeq exec st calls).1 = execStates exec st calls := by
  intro calls
  induction calls with
  | nil => intro st; rfl
  | cons c cs ih => intro st; simp [executeToolsSeq, execStates, ih]

theorem executeToolsSeq_get {St : Type}
    (exec : St → String → String → St × Except String String) :
    ∀ (calls : List ToolCall) (st : St) (i : Nat) (call : ToolCall),
      calls.get? i = some call →
      (executeToolsSeq exec st calls).2.get? i =
        some ⟨call.id, call.function.name,
          toolContent (exec (execStates exec st (calls.take i))
            call.function.name call.function.arguments).2⟩ := by
  intro calls
  induction calls with
  | nil => intro st i call h; simp at h
  | cons c cs ih =>
    intro st i call h
    cases i with
    | zero =>
      simp at h
      subst h
      rfl
    | succ i =>
      simp only [List.get?] at h
      have := ih (exec st c.function.name c.function.arguments).1 i call h
      simpa [executeToolsSeq, execStates, List.take] using this

theorem consume_toolround (outs : List ServerMessage) (tcs : List ToolCall) (h : tcs ≠ []) :
    consumeChunks ⟨"", [], "", outs⟩
        [(⟨"", tcs, "tool_calls", none⟩ : StreamChunk)] =
      .ok ⟨"", tcs, "tool_calls", outs⟩ := by
  simp [consumeChunks, h]

theorem chatLoop_tool_round_step {St : Type}
    (rounds : Nat → Except String (List StreamChunk))
    (exec : St → String → String → St × Except String String)
    (st : St) (msgs newMsgs : List Message) (outs : List ServerMessage)
    (idx r : Nat) (cs : List StreamChunk) (acc : RoundAcc)
    (h1 : rounds idx = .ok cs)
    (h2 : consumeChunks ⟨"", [], "", outs⟩ cs = .ok acc)
    (hstop : acc.finishReason ≠ "stop") (htc : acc.toolCalls ≠ []) :
    chatLoop rounds exec st msgs newMsgs outs idx (r + 1) =
      bumpCalls (chatLoop rounds exec (executeToolsSeq exec st acc.toolCalls).1
        ((msgs ++ [assistantMsgOf acc.fullContent acc.toolCalls]) ++
          ((executeToolsSeq exec st acc.toolCalls).2.map toolMsgOf))
        ((newMsgs ++ [assistantMsgOf acc.fullContent acc.toolCalls]) ++
          ((executeToolsSeq exec st acc.toolCalls).2.map toolMsgOf))
        acc.outs (idx + 1) r) := by
  simp only [chatLoop]
  rw [h1]
  simp only []
  rw [h2]
  simp only []
  rw [if_neg (by simp [hstop, htc])]

theorem chatLoop_all_tool_rounds {St : Type}
    (exec : St → String → String → St × Except String String)
    (tcs : Nat → List ToolCall) (htcs : ∀ i, tcs i ≠ []) :
    ∀ (r : Nat) (st : St) (messages newMessages : List Message)
      (outs : List ServerMessage) (idx : Nat),
      ∃ st2 m2 n2,
        chatLoop (fun i => Except.ok [(⟨"", tcs i, "tool_calls", none⟩ : StreamChunk)])
          exec st messages newMessages outs idx r = .finished st2 m2 n2 outs r := by
  intro r
  induction r with
  | zero =>
    intro st messages newMessages outs idx
    exact ⟨st, messages, newMessages, rfl⟩
  | succ r ih =>
    intro st messages newMessages outs idx
    have hstep := chatLoop_tool_round_step
      (fun i => Except.ok [(⟨"", tcs i, "tool_calls", none⟩ : StreamChunk)]) exec st
      messages newMessages outs idx r
      [(⟨"", tcs idx, "tool_calls", none⟩ : StreamChunk)]
      ⟨"", tcs idx, "tool_calls", outs⟩ rfl
      (consume_toolround outs (tcs idx) (htcs idx))
      (show ("tool_calls" : String) ≠ "stop" from by decide) (htcs idx)
    rw [hstep]
    obtain ⟨st2, m2, n2, hrec⟩ := ih (executeToolsSeq exec st (tcs idx)).1 _ _ outs (idx + 1)
    rw [hrec]
    exact ⟨st2, m2, n2, rfl⟩

/-- C3: the model-call/tool-execution loop is bounded by the fixed
`maxIterations := 10`: if the model answers every round with tool calls
(so 11 or more consecutive tool-call rounds are on offer), the handler
makes exactly 10 model calls, then still commits, saves the new messages
into the store under the conversation id, and emits a single terminal
`done` protocol message carrying the conversation id — no truncation
signal of any kind. -/
theorem handler_loop_bound_ten {St : Type}
    (exec : St → String → String → St × Except String String) (st : St)
    (tcs : Nat → List ToolCall) (sysPrompt : String) (conv : Conversation)
    (userMsg : String) (htcs : ∀ i, tcs i ≠ []) :
    (runHandler (fun i => Except.ok [(⟨"", tcs i, "tool_calls", none⟩ : StreamChunk)])
        exec st sysPrompt conv userMsg true).modelCalls = 10 ∧
    (runHandler (fun i => Except.ok [(⟨"", tcs i, "tool_calls", none⟩ : StreamChunk)])
        exec st sysPrompt conv userMsg true).outs = [mkDoneMsg conv.id] ∧
    (∃ msgs, (runHandler (fun i => Except.ok [(⟨"", tcs i, "tool_calls", none⟩ : StreamChunk)])
        exec st sysPrompt conv userMsg true).saved = some (conv.id, msgs)) := by
  obtain ⟨st2, m2, n2, hloop⟩ := chatLoop_all_tool_rounds exec tcs htcs 10 st
    ((⟨"system", some sysPrompt, [], "", ""⟩ : Message) ::
      (conv.messages ++ [(⟨"user", some userMsg, [], "", ""⟩ : Message)]))
    [(⟨"user", some userMsg, [], "", ""⟩ : Message)] [] 0
  unfold runHandler
  dsimp only
  rw [hloop]
  exact ⟨rfl, rfl, ⟨n2, rfl⟩⟩

/-- Witness for C3: a constant single tool call every round. -/
theorem handler_loop_bound_ten_witness :
    (runHandler
        (fun i => Except.ok
          [(⟨"", (fun (_ : Nat) => [(⟨"c1", "function", ⟨"get_stats", ""⟩⟩ : ToolCall)]) i,
            "tool_calls", none⟩ : StreamChunk)])
        (fun (s : Unit) _ _ => (s, Except.ok ("\x7b\x7d"))) () "sys" ⟨"conv1", []⟩ "hi"
        true).modelCalls = 10 ∧
    (runHandler
        (fun i => Except.ok
          [(⟨"", (fun (_ : Nat) => [(⟨"c1", "function", ⟨"get_stats", ""⟩⟩ : ToolCall)]) i,
            "tool_calls", none⟩ : StreamChunk)])
        (fun (s : Unit) _ _ => (s, Except.ok ("\x7b\x7d"))) () "sys" ⟨"conv1", []⟩ "hi"
        true).outs = [mkDoneMsg (⟨"conv1", []⟩ : Conversation).id] ∧
    (∃ msgs, (runHandler
        (fun i => Except.ok
          [(⟨"", (fun (_ : Nat) => [(⟨"c1", "function", ⟨"get_stats", ""⟩⟩ : ToolCall)]) i,
            "tool_calls", none⟩ : StreamChunk)])
        (fun (s : Unit) _ _ => (s, Except.ok ("\x7b\x7d"))) () "sys" ⟨"conv1", []⟩ "hi"
        true).saved = some ((⟨"conv1", []⟩ : Conversation).id, msgs)) :=
  handler_loop_bound_ten (fun (s : Unit) _ _ => (s, Except.ok ("\x7b\x7d"))) ()
    (fun _ => [(⟨"c1", "function", ⟨"get_stats", ""⟩⟩ : ToolCall)]) "sys" ⟨"conv1", []⟩ "hi"
    (fun _ => List.cons_ne_nil _ _)

/-- C4: within one turn all tool calls of a round run strictly
sequentially in the order of the requested list — result `i` is produced
by running call `i` on the executor state left behind by calls
`0..i-1`, the final state is the left-to-right fold over the whole list —
and the loop appends exactly one tool-role message per call, in that same
order, to the histories handed to the next model call. -/
theorem tools_executed_sequentially :
    (∀ (St : Type) (exec : St → String → String → St × Except String String)
        (st : St) (calls : List ToolCall),
      (executeToolsSeq exec st calls).2.length = calls.length) ∧
    (∀ (St : Type) (exec : St → String → String → St × Except String String)
        (st : St) (calls : List ToolCall) (i : Nat) (call : ToolCall),
      calls.get? i = some call →
      (executeToolsSeq exec st calls).2.get? i =
        some ⟨call.id, call.function.name,
          toolContent (exec (execStates exec st (calls.take i))
            call.function.name call.function.arguments).2⟩) ∧
    (∀ (St : Type) (exec : St → String → String → St × Except String String)
        (st : St) (calls : List ToolCall),
      (executeToolsSeq exec st calls).1 = execStates exec st calls) ∧
    (∀ (St : Type) (rounds : Nat → Except String (List StreamChunk))
        (exec : St → String → String → St × Except String String)
        (st : St) (msgs newMsgs : List Message) (outs : List ServerMessage)
        (idx r : Nat) (cs : List StreamChunk) (acc : RoundAcc),
      rounds idx = .ok cs →
      consumeChunks ⟨"", [], "", outs⟩ cs = .ok acc →
      acc.finishReason ≠ "stop" → acc.toolCalls ≠ [] →
      chatLoop rounds exec st msgs newMsgs outs idx (r + 1) =
        bumpCalls (chatLoop rounds exec (executeToolsSeq exec st acc.toolCalls).1
          ((msgs ++ [assistantMsgOf acc.fullContent acc.toolCalls]) ++
            ((executeToolsSeq exec st acc.toolCalls).2.map toolMsgOf))
          ((newMsgs ++ [assistantMsgOf acc.fullContent acc.toolCalls]) ++
            ((executeToolsSeq exec st acc.toolCalls).2.map toolMsgOf))
          acc.outs (idx + 1) r)) :=
  ⟨fun _ exec st calls => executeToolsSeq_length exec calls st,
   fun _ exec st calls i call h => executeToolsSeq_get exec calls st i call h,
   fun _ exec st calls => executeToolsSeq_state exec calls st,
   fun _ rounds exec st msgs newMsgs outs idx r cs acc h1 h2 h3 h4 =>
     chatLoop_tool_round_step rounds exec st msgs newMsgs outs idx r cs acc h1 h2 h3 h4⟩

/-- Witness for C4 at a two-call list against a state-counting executor:
the second call sees the state the first left behind. -/
theorem tools_executed_sequentially_witness :
    ([(⟨"c1", "function", ⟨"a", ""⟩⟩ : ToolCall),
      ⟨"c2", "function", ⟨"b", ""⟩⟩].get? 1 = some ⟨"c2", "function", ⟨"b", ""⟩⟩) ∧
    (executeToolsSeq (fun (n : Nat) _ _ => (n + 1, Except.ok (toString n))) 0
        [(⟨"c1", "function", ⟨"a", ""⟩⟩ : ToolCall),
         ⟨"c2", "function", ⟨"b", ""⟩⟩]).2.get? 1 =
      some ⟨"c2", "b",
        toolContent ((fun (n : Nat) _ _ => (n + 1, Except.ok (toString n)))
          (execStates (fun (n : Nat) _ _ => (n + 1, Except.ok (toString n))) 0
            ([(⟨"c1", "function", ⟨"a", ""⟩⟩ : ToolCall),
              ⟨"c2", "function", ⟨"b", ""⟩⟩].take 1)) "b" "").2⟩ :=
  ⟨by decide,
   tools_executed_sequentially.2.1 Nat (fun (n : Nat) _ _ => (n + 1, Except.ok (toString n))) 0
     [(⟨"c1", "function", ⟨"a", ""⟩⟩ : ToolCall), ⟨"c2", "function", ⟨"b", ""⟩⟩] 1
     ⟨"c2", "function", ⟨"b", ""⟩⟩ (by decide)⟩

/-- C10: a hard (non-nil) executor error is folded into the tool-role
message content as `{"error": "<message>"}` (handler.go lines 205-208),
and the loop then continues normally: in the concrete two-round scenario
the turn finishes with the text and `done` messages, two model calls, the
folded tool message in the saved transcript, and no protocol-level error
message. -/
theorem hard_tool_error_folded_into_message :
    (∀ (St : Type) (exec : St → String → String → St × Except String String)
        (st : St) (calls : List ToolCall) (i : Nat) (call : ToolCall) (msg : String),
      calls.get? i = some call →
      (exec (execStates exec st (calls.take i))
        call.function.name call.function.arguments).2 = .error msg →
      (executeToolsSeq exec st calls).2.get? i =
        some ⟨call.id, call.function.name, hardErrJSON msg⟩) ∧
    ((runHandler roundsC10 execAlwaysHardError () "sys" ⟨"conv1", []⟩ "hi" true).outs =
        [mkTextMsg ("All done."), mkDoneMsg ("conv1")] ∧
      (runHandler roundsC10 execAlwaysHardError () "sys" ⟨"conv1", []⟩ "hi" true).saved =
        some ("conv1",
          [⟨"user", some "hi", [], "", ""⟩,
           ⟨"assistant", none, [⟨"c1", "function", ⟨"foo", ""⟩⟩], "", ""⟩,
           ⟨"tool", some (hardErrJSON ("unknown tool: foo")), [], "c1", "foo"⟩,
           ⟨"assistant", some "All done.", [], "", ""⟩]) ∧
      (runHandler roundsC10 execAlwaysHardError () "sys" ⟨"conv1", []⟩ "hi" true).modelCalls = 2) := by
  constructor
  · intro St exec st calls i call msg hget herr
    rw [executeToolsSeq_get exec calls st i call hget, herr]
    rfl
  · refine ⟨by decide, by decide, by decide⟩

/-- Witness for C10 at a singleton call list whose execution fails hard. -/
theorem hard_tool_error_folded_into_message_witness :
    ([(⟨"c1", "function", ⟨"foo", ""⟩⟩ : ToolCall)].get? 0 =
        some ⟨"c1", "function", ⟨"foo", ""⟩⟩) ∧
    (executeToolsSeq execAlwaysHardError () [⟨"c1", "function", ⟨"foo", ""⟩⟩]).2.get? 0 =
      some ⟨"c1", "foo", hardErrJSON ("unknown tool: foo")⟩ :=
  ⟨by decide,
   hard_tool_error_folded_into_message.1 Unit execAlwaysHardError ()
     [⟨"c1", "function", ⟨"foo", ""⟩⟩] 0 ⟨"c1", "function", ⟨"foo", ""⟩⟩
     ("unknown tool: foo") (by decide) rfl⟩

theorem dispatchTool_none {Args Res : Type} (env : ToolEnv Args Res) (name : String)
    (args : Args) (h : name ∉ toolNames) : dispatchTool env name args = none := by
  unfold dispatchTool
  split <;> simp_all [toolNames]

/-- C7: `Execute` treats an empty arguments string as no arguments (the
parser is never consulted; dispatch runs on the nil map); every name
outside the dispatch table yields a hard (non-nil) error for any
arguments string; and a dispatched domain operation that fails with
message `msg` makes `Execute` return the JSON object
`{"error": <quoted msg>}` as a successful result. -/
theorem executeTool_contract :
    (∀ (Args Res : Type) (env : ToolEnv Args Res) (name : String),
      executeTool env name "" = executeToolWith env name env.noArgs) ∧
    (∀ (Args Res : Type) (env : ToolEnv Args Res) (name arguments : String),
      name ∉ toolNames → ∃ e, executeTool env name arguments = .error e) ∧
    (∀ (Args Res : Type) (env : ToolEnv Args Res) (name arguments : String)
        (args : Args) (msg : String),
      (if arguments = "" then Except.ok env.noArgs else env.parseArgs arguments) = .ok args →
      dispatchTool env name args = some (.error msg) →
      executeTool env name arguments = .ok (opErrJSON msg)) := by
  refine ⟨?_, ?_, ?_⟩
  · intro Args Res env name
    rfl
  · intro Args Res env name arguments h
    unfold executeTool
    cases harg : (if arguments = "" then Except.ok env.noArgs else env.parseArgs arguments) with
    | error e => exact ⟨_, rfl⟩
    | ok args =>
      dsimp only
      unfold executeToolWith
      rw [dispatchTool_none env name args h]
      exact ⟨_, rfl⟩
  · intro Args Res env name arguments args msg hparse hdisp
    unfold executeTool
    rw [hparse]
    dsimp only
    unfold executeToolWith
    rw [hdisp]

/-- Witness for C7 on the trivial environment: empty arguments skip the
(failing) parser; an unknown name errors; `get_stats` failing server-side
comes back as an `{"error": ...}` success. -/
theorem executeTool_contract_witness :
    executeTool envTrivial "get_stats" "" = executeToolWith envTrivial "get_stats" () ∧
    (("bogus" : String) ∉ toolNames ∧
      ∃ e, executeTool envTrivial "bogus" "\x7b\x7d" = .error e) ∧
    executeTool envTrivial "get_stats" "" = .ok (opErrJSON ("server error")) :=
  ⟨executeTool_contract.1 Unit Unit envTrivial "get_stats",
   ⟨by decide,
    executeTool_contract.2.1 Unit Unit envTrivial "bogus" "\x7b\x7d" (by decide)⟩,
   executeTool_contract.2.2 Unit Unit envTrivial "get_stats" "" () "server error" rfl rfl⟩

theorem lastOnlyErr_nil : lastOnlyErr [] := by
  intro c hc
  simp [List.dropLast] at hc

theorem lastOnlyErr_single (c : StreamChunk) : lastOnlyErr [c] := by
  intro x hx
  simp [List.dropLast] at hx

theorem lastOnlyErr_cons (c : StreamChunk) (L : List StreamChunk) (hc : c.err = none)
    (hL : lastOnlyErr L) : lastOnlyErr (c :: L) := by
  intro x hx
  cases L with
  | nil => simp [List.dropLast] at hx
  | cons d ds =>
    rw [List.dropLast_cons₂] at hx
    rcases List.mem_cons.mp hx with h | h
    · subst h
      exact hc
    · exact hL x h

theorem runStream_lastOnlyErr (decode : String → Except String StreamResp)
    (scanErr : Option String) :
    ∀ (lines : List String) (m : TCMap), lastOnlyErr (runStream decode m scanErr lines) := by
  intro lines
  induction lines with
  | nil =>
    intro m
    cases scanErr with
    | none => exact lastOnlyErr_nil
    | some e => exact lastOnlyErr_single _
  | cons line rest ih =>
    intro m
    unfold runStream
    cases hs : sseData line with
    | none => exact ih m
    | some d =>
      dsimp only
      by_cases hdone : d = "[DONE]"
      · rw [if_pos hdone]
        exact lastOnlyErr_nil
      · rw [if_neg hdone]
        cases hd : decode d with
        | error e => exact lastOnlyErr_single _
        | ok resp =>
          dsimp only
          cases hc : resp.choices with
          | nil => exact ih m
          | cons choice rest2 =>
            dsimp only
            split <;> split
            all_goals first
              | exact lastOnlyErr_cons _ _ rfl (ih _)
              | exact ih _

theorem runStream_no_err_of_benign (decode : String → Except String StreamResp) :
    ∀ (lines : List String) (m : TCMap),
      (∀ line ∈ lines, ∀ d, sseData line = some d → d ≠ "[DONE]" → ∃ r, decode d = .ok r) →
      ∀ c ∈ runStream decode m none lines, c.err = none := by
  intro lines
  induction lines with
  | nil =>
    intro m h c hc
    simp [runStream] at hc
  | cons line rest ih =>
    intro m h
    have hline := h line (List.mem_cons_self line rest)
    have hrest : ∀ l ∈ rest, ∀ d, sseData l = some d → d ≠ "[DONE]" → ∃ r, decode d = .ok r :=
      fun l hl => h l (List.mem_cons_of_mem line hl)
    unfold runStream
    cases hs : sseData line with
    | none => exact ih m hrest
    | some d =>
      dsimp only
      by_cases hdone : d = "[DONE]"
      · rw [if_pos hdone]
        intro c hc
        simp at hc
      · rw [if_neg hdone]
        obtain ⟨r, hr⟩ := hline d hs hdone
        rw [hr]
        dsimp only
        cases hc2 : r.choices with
        | nil => exact ih m hrest
        | cons choice rest2 =>
          dsimp only
          split <;> split
          all_goals first
            | exact ih _ hrest
            | (intro c hc
               rcases List.mem_cons.mp hc with h1 | h1
               · subst h1
                 rfl
               · exact ih _ hrest c h1)

/-- C6 (amended): transport errors and non-200 statuses abort
`ChatStreamWithTools` before any channel exists, surfacing as a
function-level error with no chunk delivered; once the stream is open, an
error-bearing chunk can only be the final chunk before the channel
closes; an SSE decode error or a scanner read error each deliver exactly
one error chunk and close; the `[DONE]` sentinel closes cleanly with no
error chunk; and a stream whose payloads all decode (with no read error)
closes without any error chunk. -/
theorem chatStream_error_semantics :
    (∀ (decode : String → Except String StreamResp) (e : String),
      chatStreamBegin decode (.error e) = .error ("failed to make request: " ++ e)) ∧
    (∀ (decode : String → Except String StreamResp) (r : HTTPResp), r.status ≠ 200 →
      chatStreamBegin decode (.ok r) =
        .error ("API error (status " ++ toString r.status ++ "): " ++ r.body)) ∧
    (∀ (decode : String → Except String StreamResp) (m : TCMap) (scanErr : Option String)
        (lines : List String),
      lastOnlyErr (runStream decode m scanErr lines)) ∧
    (∀ (decode : String → Except String StreamResp) (m : TCMap) (scanErr : Option String)
        (line d e : String) (rest : List String),
      sseData line = some d → d ≠ "[DONE]" → decode d = .error e →
      runStream decode m scanErr (line :: rest) =
        [mkErrChunk ("failed to parse SSE data: " ++ e)]) ∧
    (∀ (decode : String → Except String StreamResp) (m : TCMap) (e : String),
      runStream decode m (some e) [] = [mkErrChunk ("failed to read stream: " ++ e)]) ∧
    (∀ (decode : String → Except String StreamResp) (m : TCMap) (scanErr : Option String)
        (line : String) (rest : List String),
      sseData line = some "[DONE]" →
      runStream decode m scanErr (line :: rest) = []) ∧
    (∀ (decode : String → Except String StreamResp) (lines : List String) (m : TCMap),
      (∀ line ∈ lines, ∀ d, sseData line = some d → d ≠ "[DONE]" → ∃ r, decode d = .ok r) →
      ∀ c ∈ runStream decode m none lines, c.err = none) := by
  refine ⟨?_, ?_, ?_, ?_, ?_, ?_, ?_⟩
  · intro decode e
    rfl
  · intro decode r h
    unfold chatStreamBegin
    dsimp only
    rw [if_pos h]
  · intro decode m scanErr lines
    exact runStream_lastOnlyErr decode scanErr lines m
  · intro decode m scanErr line d e rest h1 h2 h3
    unfold runStream
    rw [h1]
    dsimp only
    rw [if_neg h2, h3]
  · intro decode m e
    rfl
  · intro decode m scanErr line rest h
    unfold runStream
    rw [h]
    dsimp only
    rw [if_pos rfl]
  · exact runStream_no_err_of_benign

/-- Witness for C6 at concrete failing and succeeding streams. -/
theorem chatStream_error_semantics_witness :
    chatStreamBegin decodeTrivial
        (Except.ok ⟨500, "oops", [], none⟩) =
      Except.error ("API error (status " ++ toString (500 : Int) ++ "): " ++ "oops") ∧
    runStream (fun _ => Except.error ("boom")) [] none ["data: bad"] =
      [mkErrChunk ("failed to parse SSE data: " ++ "boom")] ∧
    runStream decodeTrivial [] (some "reset") ["data: [DONE]", "junk"] = [] ∧
    (∀ c ∈ runStream decodeTrivial [] none ["data: [DONE]"], c.err = none) :=
  ⟨chatStream_error_semantics.2.1 decodeTrivial ⟨500, "oops", [], none⟩ (by decide),
   chatStream_error_semantics.2.2.2.1 (fun _ => Except.error ("boom")) [] none
     "data: bad" "bad" "boom" [] (by decide) (by decide) rfl,
   chatStream_error_semantics.2.2.2.2.2.1 decodeTrivial [] (some "reset")
     "data: [DONE]" ["junk"] (by decide),
   chatStream_error_semantics.2.2.2.2.2.2 decodeTrivial ["data: [DONE]"] []
     (fun line hline d hd hne => ⟨⟨[]⟩, rfl⟩)⟩

/-- C6 as stated is false on the code: a transport failure never creates
the stream channel at all — `ChatStreamWithTools` returns `(nil, error)`
and no `StreamChunk` (error-bearing or otherwise) is ever delivered on a
channel. -/
theorem chatStream_transport_error_returns_no_channel :
    (¬ ∃ chunks, chatStreamBegin decodeTrivial (Except.error ("connection refused")) =
        Except.ok chunks) ∧
    chatStreamBegin decodeTrivial (Except.error ("connection refused")) =
      Except.error ("failed to make request: " ++ "connection refused") := by
  constructor
  · rintro ⟨chunks, h⟩
    simp [chatStreamBegin] at h
  · rfl
